import Mathlib

/-!
Verification of the sixerr-plugin session & streaming-translation engine.

The definitions below are a shallow embedding of the TypeScript sources:
the Chat-Completions translator (`buildContext`, `handleStreaming`,
`handleNonStreaming`, `handleIncomingRequest`) and the Responses translator
(`extractTextContent`, `extractImages`, `buildContext`).  JavaScript's
built-in `JSON.parse` / `JSON.stringify` are modelled by an executable
`Json` type with a fuel-based parser and a serializer.
-/

set_option maxHeartbeats 1000000

-- ===========================================================================
-- JSON values: model of the JavaScript JSON universe.
-- Numbers are modelled as rationals (JSON numbers are decimal literals with
-- optional fraction and exponent).
-- ===========================================================================

inductive Json where
  | null : Json
  | bool (b : Bool) : Json
  | num (q : Rat) : Json
  | str (s : String) : Json
  | arr (elems : List Json) : Json
  | obj (fields : List (String × Json)) : Json

namespace Json

def hexDigit (n : Nat) : Char :=
  if n < 10 then Char.ofNat (48 + n) else Char.ofNat (87 + n)

/-- Model of the string escaping performed by `JSON.stringify`. -/
def escapeChar (c : Char) : String :=
  if c = '"' then "\\\""
  else if c = '\\' then "\\\\"
  else if c = '\n' then "\\n"
  else if c = '\r' then "\\r"
  else if c = '\t' then "\\t"
  else if c.toNat < 32 then
    "\\u00" ++ String.singleton (hexDigit (c.toNat / 16)) ++ String.singleton (hexDigit (c.toNat % 16))
  else String.singleton c

def escapeString (s : String) : String :=
  (s.toList.map escapeChar).foldl (· ++ ·) ""

/-- Model of number formatting: integral rationals print as integers (the only
numeric shape exercised by this code base). -/
def numRepr (q : Rat) : String :=
  if q.den = 1 then toString q.num else toString q.num ++ "/" ++ toString q.den

mutual
/-- Model of `JSON.stringify`. -/
def stringify : Json → String
  | .null => "null"
  | .bool true => "true"
  | .bool false => "false"
  | .num q => numRepr q
  | .str s => "\"" ++ escapeString s ++ "\""
  | .arr xs => "[" ++ stringifyElems xs ++ "]"
  | .obj fs => "\x7b" ++ stringifyFields fs ++ "\x7d"

def stringifyElems : List Json → String
  | [] => ""
  | [x] => stringify x
  | x :: rest => stringify x ++ "," ++ stringifyElems rest

def stringifyFields : List (String × Json) → String
  | [] => ""
  | [(k, v)] => "\"" ++ escapeString k ++ "\":" ++ stringify v
  | (k, v) :: rest => "\"" ++ escapeString k ++ "\":" ++ stringify v ++ "," ++ stringifyFields rest
end

-- ---------------------------------------------------------------------------
-- Model of `JSON.parse` (returns `none` where JSON.parse would throw).
-- ---------------------------------------------------------------------------

def isWsChar (c : Char) : Bool :=
  c = ' ' || c = '\t' || c = '\n' || c = '\r'

def skipWs : List Char → List Char
  | [] => []
  | c :: rest => if isWsChar c then skipWs rest else c :: rest

def isDigitChar (c : Char) : Bool :=
  48 ≤ c.toNat && c.toNat ≤ 57

def digitVal (c : Char) : Nat := c.toNat - 48

def hexVal (c : Char) : Option Nat :=
  if 48 ≤ c.toNat ∧ c.toNat ≤ 57 then some (c.toNat - 48)
  else if 97 ≤ c.toNat ∧ c.toNat ≤ 102 then some (c.toNat - 87)
  else if 65 ≤ c.toNat ∧ c.toNat ≤ 70 then some (c.toNat - 55)
  else none

def escMap (c : Char) : Option Char :=
  if c = '"' then some '"'
  else if c = '\\' then some '\\'
  else if c = '/' then some '/'
  else if c = 'n' then some '\n'
  else if c = 't' then some '\t'
  else if c = 'r' then some '\r'
  else if c = 'b' then some (Char.ofNat 8)
  else if c = 'f' then some (Char.ofNat 12)
  else none

/-- Parse the body of a JSON string literal (the opening quote already
consumed), returning the decoded string and the remaining input. -/
def parseStr : Nat → List Char → Option (String × List Char)
  | 0, _ => none
  | _, [] => none
  | fuel + 1, c :: rest =>
    if c = '"' then some ("", rest)
    else if c = '\\' then
      match rest with
      | [] => none
      | e :: rest2 =>
        if e = 'u' then
          match rest2 with
          | a :: b :: c2 :: d :: rest3 => do
            let ha ← hexVal a
            let hb ← hexVal b
            let hc ← hexVal c2
            let hd ← hexVal d
            let (s, r) ← parseStr fuel rest3
            pure (String.singleton (Char.ofNat (((ha * 16 + hb) * 16 + hc) * 16 + hd)) ++ s, r)
          | _ => none
        else do
          let ec ← escMap e
          let (s, r) ← parseStr fuel rest2
          pure (String.singleton ec ++ s, r)
    else do
      let (s, r) ← parseStr fuel rest
      pure (String.singleton c ++ s, r)

def natOfDigits (l : List Char) : Nat :=
  l.foldl (fun a c => a * 10 + digitVal c) 0

/-- Parse a JSON number literal, returned as a rational. -/
def parseNum (cs : List Char) : Option (Rat × List Char) :=
  let (neg, cs1) := match cs with
    | '-' :: rest => (true, rest)
    | _ => (false, cs)
  let intDigs := cs1.takeWhile isDigitChar
  let cs2 := cs1.dropWhile isDigitChar
  if intDigs.isEmpty then none
  else if 1 < intDigs.length ∧ intDigs.headD '0' = '0' then none
  else
    let step2 : Option (Nat × Nat × List Char) :=
      match cs2 with
      | '.' :: rest =>
        let fracDigs := rest.takeWhile isDigitChar
        if fracDigs.isEmpty then none
        else some (natOfDigits (intDigs ++ fracDigs), fracDigs.length, rest.dropWhile isDigitChar)
      | _ => some (natOfDigits intDigs, 0, cs2)
    match step2 with
    | none => none
    | some (mantissa, fracLen, cs3) =>
      let step3 : Option (Int × List Char) :=
        match cs3 with
        | 'e' :: rest | 'E' :: rest =>
          let (eneg, rest2) := match rest with
            | '-' :: r => (true, r)
            | '+' :: r => (false, r)
            | _ => (false, rest)
          let expDigs := rest2.takeWhile isDigitChar
          if expDigs.isEmpty then none
          else some ((if eneg then -(natOfDigits expDigs : Int) else (natOfDigits expDigs : Int)),
                     rest2.dropWhile isDigitChar)
        | _ => some (0, cs3)
      match step3 with
      | none => none
      | some (e, cs4) =>
        let base : Rat := (mantissa : Rat) / ((10 : Rat) ^ fracLen)
        let scaled : Rat := base * (10 : Rat) ^ e
        some ((if neg then -scaled else scaled), cs4)

def expectLit (lit : List Char) (cs : List Char) : Option (List Char) :=
  if lit.isPrefixOf cs then some (cs.drop lit.length) else none

mutual
/-- Fuel-based recursive-descent JSON value parser. -/
def parseValue : Nat → List Char → Option (Json × List Char)
  | 0, _ => none
  | fuel + 1, cs =>
    match skipWs cs with
    | [] => none
    | c :: rest =>
      if c = '"' then do
        let (s, r) ← parseStr (fuel + 1) rest
        pure (Json.str s, r)
      else if c = '[' then parseElems fuel (skipWs rest) true
      else if c = '\x7b' then parseFields fuel (skipWs rest) true
      else if c = 'n' then do
        let r ← expectLit ['n', 'u', 'l', 'l'] (c :: rest)
        pure (Json.null, r)
      else if c = 't' then do
        let r ← expectLit ['t', 'r', 'u', 'e'] (c :: rest)
        pure (Json.bool true, r)
      else if c = 'f' then do
        let r ← expectLit ['f', 'a', 'l', 's', 'e'] (c :: rest)
        pure (Json.bool false, r)
      else do
        let (q, r) ← parseNum (c :: rest)
        pure (Json.num q, r)

/-- Parse array elements; `first` is true when no element has been consumed yet. -/
def parseElems : Nat → List Char → Bool → Option (Json × List Char)
  | 0, _, _ => none
  | _ + 1, [], _ => none
  | fuel + 1, c :: rest, first =>
    if c = ']' ∧ first then some (Json.arr [], rest)
    else do
      let (v, r) ← parseValue fuel (c :: rest)
      match skipWs r with
      | ']' :: r2 => pure (Json.arr [v], r2)
      | ',' :: r2 => do
        let (tailJson, r3) ← parseElems fuel (skipWs r2) false
        match tailJson with
        | Json.arr vs => pure (Json.arr (v :: vs), r3)
        | _ => none
      | _ => none

/-- Parse object members; `first` is true when no member has been consumed yet. -/
def parseFields : Nat → List Char → Bool → Option (Json × List Char)
  | 0, _, _ => none
  | _ + 1, [], _ => none
  | fuel + 1, c :: rest, first =>
    if c = '\x7d' ∧ first then some (Json.obj [], rest)
    else if c = '"' then do
      let (k, r) ← parseStr fuel rest
      match skipWs r with
      | ':' :: r2 => do
        let (v, r3) ← parseValue fuel (skipWs r2)
        match skipWs r3 with
        | '\x7d' :: r4 => pure (Json.obj [(k, v)], r4)
        | ',' :: r4 => do
          let (tailJson, r5) ← parseFields fuel (skipWs r4) false
          match tailJson with
          | Json.obj fs => pure (Json.obj ((k, v) :: fs), r5)
          | _ => none
        | _ => none
      | _ => none
    else none
end

/-- Model of `JSON.parse`: `none` where the JavaScript built-in would throw. -/
def parse (s : String) : Option Json :=
  match parseValue (s.length + 1) s.toList with
  | none => none
  | some (v, rest) => if (skipWs rest).isEmpty then some v else none

end Json

-- ===========================================================================
-- Shared canonical-conversation model (pi-ai `Context` / `Message` shapes).
-- Wall-clock `timestamp` fields and the constant provider/model/cost fields
-- of source messages are omitted (environment noise, not logic).
-- ===========================================================================

/-- Model of JavaScript `String.prototype.trim`. -/
def jsTrim (s : String) : String :=
  String.mk (((s.toList.dropWhile Json.isWsChar).reverse.dropWhile Json.isWsChar).reverse)

structure PiUsage where
  input : Nat
  output : Nat
  totalTokens : Nat
  deriving DecidableEq

inductive StopReason where
  | stop
  | length
  | toolUse
  | error
  deriving DecidableEq

inductive UserContent where
  | str (s : String)
  | parts (texts : List String)

inductive AssistantPart where
  | text (s : String)
  | toolCall (id : String) (name : String) (arguments : Json)

inductive PiMessage where
  | user (content : UserContent)
  | assistant (content : List AssistantPart) (stopReason : StopReason)
  | toolResult (toolCallId : String) (toolName : String) (content : String) (isError : Bool)

structure ImageContent where
  data : String
  mimeType : String

structure PiTool where
  name : String
  description : String
  parameters : Json

structure Context where
  systemPrompt : Option String
  messages : List PiMessage
  tools : Option (List PiTool)

structure BuildResult where
  context : Context
  images : List ImageContent

/-- Accumulator of the translators' message-building loops:
(system parts, canonical messages, extracted images), each appended in order. -/
abbrev BuildAcc := List String × List PiMessage × List ImageContent

-- ===========================================================================
-- Wire frames and Chat-Completions response/usage shapes.
-- ===========================================================================

structure ChatCompletionUsage where
  prompt_tokens : Nat
  completion_tokens : Nat
  total_tokens : Nat
  deriving DecidableEq

def toChatCompletionsUsage (u : PiUsage) : ChatCompletionUsage :=
  ⟨u.input, u.output, u.totalTokens⟩

structure FunctionSpec where
  name : String
  arguments : String

structure ToolCallType where
  id : String
  function : FunctionSpec

/-- Structured model of the `delta` object of one Chat-Completions chunk. -/
inductive StreamDelta where
  | role (r : String)
  | content (s : String)
  | toolCallStart (index : Nat)
  | toolCallDelta (index : Nat) (arguments : String)
  | toolCallEnd (index : Nat) (id : String) (name : String) (arguments : String)
  | empty

structure StreamChunk where
  id : String
  model : String
  delta : StreamDelta
  finishReason : Option String

structure ResponseBody where
  id : String
  model : String
  content : Option String
  tool_calls : Option (List ToolCallType)
  finish_reason : String
  usage : ChatCompletionUsage

inductive Frame where
  | streamEvent (requestId : String) (chunk : StreamChunk)
  | streamEnd (requestId : String) (usage : ChatCompletionUsage)
  | error (requestId : String) (code : String) (message : String)
  | response (requestId : String) (body : ResponseBody)

-- ===========================================================================
-- LLM capability events (pi-ai `streamSimple` event stream).
-- ===========================================================================

inductive LLMEvent where
  | textDelta (delta : String)
  | toolcallStart
  | toolcallDelta (delta : String)
  | toolcallEnd (id : String) (name : String) (arguments : Json)
  | done (usage : PiUsage)
  | error (errorMessage : Option String) (usage : PiUsage)

/-- Usage payload carried by a `done` or `error` event, if any. -/
def eventUsage : LLMEvent → Option PiUsage
  | .done u => some u
  | .error _ u => some u
  | _ => none

/-- The usage carried by the last `done`/`error` event of a stream. -/
def lastUsage : List LLMEvent → Option PiUsage
  | [] => none
  | e :: rest =>
    match lastUsage rest with
    | some u => some u
    | none => eventUsage e

/-- Result of pi-ai `completeSimple` (non-streaming completion). -/
structure LLMResult where
  content : List AssistantPart
  stopReason : StopReason
  usage : PiUsage

-- ===========================================================================
-- Chat-Completions dialect translator (src/unnamed/part_001).
-- ===========================================================================

namespace CC

inductive ContentPart where
  | text (text : String)
  | imageUrl (url : String) (detail : Option String)

inductive Message where
  | system (content : String)
  | user (content : Sum String (List ContentPart))
  | assistant (content : Option String) (tool_calls : Option (List ToolCallType))
  | tool (content : String) (tool_call_id : String)

structure FunctionDef where
  name : String
  description : Option String
  parameters : Option Json

structure ToolDefinition where
  function : FunctionDef

/-- Embedding of `convertTools`. -/
def convertTools (tools : List ToolDefinition) : List PiTool :=
  tools.map fun td =>
    ⟨td.function.name, td.function.description.getD "", td.function.parameters.getD (Json.obj [])⟩

/-- Embedding of the data-URI regex match
`^data:(image\x2f[^;]+);base64,(.+)$` used by `extractImages`:
returns (mimeType, data) when the URL matches. -/
def matchDataUri (url : String) : Option (String × String) :=
  if url.startsWith "data:" then
    let rest := (url.toList.drop 5)
    let mime := rest.takeWhile (· ≠ ';')
    let afterMime := rest.dropWhile (· ≠ ';')
    if (String.mk mime).startsWith "image/" ∧ 6 < mime.length then
      if (String.mk afterMime).startsWith ";base64," then
        let dat := afterMime.drop 8
        if dat.isEmpty then none else some (String.mk mime, String.mk dat)
      else none
    else none
  else none

/-- Embedding of Chat-Completions `extractImages`. -/
def extractImages (content : List ContentPart) : List ImageContent :=
  content.foldl
    (fun acc p =>
      match p with
      | .text _ => acc
      | .imageUrl url _ =>
        match matchDataUri url with
        | some (mime, dat) => acc ++ [⟨dat, mime⟩]
        | none => acc)
    []

/-- The text parts contributed by an assistant message's `content` field
(JS truthiness: `null`, `undefined` and `""` contribute nothing). -/
def assistantTextParts (content : Option String) : List AssistantPart :=
  match content with
  | some s => if s = "" then [] else [.text s]
  | none => []

/-- Embedding of the per-tool-call conversion inside `buildContext`:
`JSON.parse` the argument string, falling back to a raw-string wrapper. -/
def convertToolCall (tc : ToolCallType) : AssistantPart :=
  match Json.parse tc.function.arguments with
  | some j => .toolCall tc.id tc.function.name j
  | none => .toolCall tc.id tc.function.name (Json.obj [("_raw", Json.str tc.function.arguments)])

/-- One iteration of the `buildContext` message loop. -/
def buildStep (acc : BuildAcc) (msg : Message) : BuildAcc :=
  match msg with
  | .system content => (acc.1 ++ [content], acc.2.1, acc.2.2)
  | .user (.inl s) => (acc.1, acc.2.1 ++ [.user (.str s)], acc.2.2)
  | .user (.inr parts) =>
    let text := String.intercalate "\n"
      (parts.filterMap fun p => match p with | .text t => some t | _ => none)
    let itemImages := extractImages parts
    (acc.1,
     acc.2.1 ++ [.user (if text = "" then .str "" else .parts [text])],
     acc.2.2 ++ itemImages)
  | .assistant content tool_calls =>
    let tcs := tool_calls.getD []
    let stopReason : StopReason := if 0 < tcs.length then .toolUse else .stop
    let parts := assistantTextParts content ++ tcs.map convertToolCall
    (acc.1, acc.2.1 ++ [.assistant parts stopReason], acc.2.2)
  | .tool content tool_call_id =>
    (acc.1, acc.2.1 ++ [.toolResult tool_call_id "" content false], acc.2.2)

/-- The accumulators produced by the `buildContext` loop, before the
empty-conversation guard. -/
def buildAccOf (messages : List Message) : BuildAcc :=
  messages.foldl buildStep ([], [], [])

/-- Embedding of Chat-Completions `buildContext`. -/
def buildContext (messages : List Message) (tools : Option (List ToolDefinition)) : BuildResult :=
  let acc := buildAccOf messages
  let piMessages := if acc.2.1.isEmpty then [PiMessage.user (.str "")] else acc.2.1
  ⟨⟨(if acc.1.isEmpty then none else some (String.intercalate "\n\n" acc.1)),
    piMessages,
    (match tools with
     | some ts => if 0 < ts.length then some (convertTools ts) else none
     | none => none)⟩,
   acc.2.2⟩

-- ---------------------------------------------------------------------------
-- Streaming path (`handleStreaming`).
-- ---------------------------------------------------------------------------

/-- Mutable locals of `handleStreaming`. -/
structure StreamState where
  accumulatedText : String
  usage : ChatCompletionUsage
  completedToolCalls : List ToolCallType
  currentToolCallIndex : Nat

def initialStreamState : StreamState := ⟨"", ⟨0, 0, 0⟩, [], 0⟩

/-- Embedding of the `emitChunk` helper. -/
def emitChunk (requestId completionId modelName : String)
    (delta : StreamDelta) (finishReason : Option String) : Frame :=
  .streamEvent requestId ⟨completionId, modelName, delta, finishReason⟩

/-- Reaction of the streaming loop body to one LLM event:
next state and the frames sent for it. -/
def streamStep (requestId completionId modelName : String)
    (st : StreamState) (e : LLMEvent) : StreamState × List Frame :=
  match e with
  | .textDelta d =>
    (⟨st.accumulatedText ++ d, st.usage, st.completedToolCalls, st.currentToolCallIndex⟩,
     [emitChunk requestId completionId modelName (.content d) none])
  | .toolcallStart =>
    let idx := st.completedToolCalls.length
    (⟨st.accumulatedText, st.usage, st.completedToolCalls, idx⟩,
     [emitChunk requestId completionId modelName (.toolCallStart idx) none])
  | .toolcallDelta d =>
    (st, [emitChunk requestId completionId modelName (.toolCallDelta st.currentToolCallIndex d) none])
  | .toolcallEnd id name args =>
    let argsString := Json.stringify args
    (⟨st.accumulatedText, st.usage,
      st.completedToolCalls ++ [⟨id, ⟨name, argsString⟩⟩], st.currentToolCallIndex⟩,
     [emitChunk requestId completionId modelName
       (.toolCallEnd st.currentToolCallIndex id name argsString) none])
  | .done u =>
    (⟨st.accumulatedText, toChatCompletionsUsage u, st.completedToolCalls, st.currentToolCallIndex⟩, [])
  | .error msg u =>
    (⟨st.accumulatedText, toChatCompletionsUsage u, st.completedToolCalls, st.currentToolCallIndex⟩,
     match msg with
     | some m => [Frame.error requestId "plugin_error" m]
     | none => [])

/-- The streaming loop over the delivered LLM events. -/
def runEvents (requestId completionId modelName : String) :
    StreamState → List LLMEvent → StreamState × List Frame
  | st, [] => (st, [])
  | st, e :: rest =>
    ((runEvents requestId completionId modelName
        (streamStep requestId completionId modelName st e).1 rest).1,
     (streamStep requestId completionId modelName st e).2 ++
       (runEvents requestId completionId modelName
         (streamStep requestId completionId modelName st e).1 rest).2)

/-- Embedding of `handleStreaming`.  `events` are the LLM events delivered
before the stream ended; `exn = some m` models the capability call itself
raising an exception with message `m` (after the delivered events). -/
def handleStreaming (requestId completionId modelName : String)
    (events : List LLMEvent) (exn : Option String) : List Frame :=
  let r := runEvents requestId completionId modelName initialStreamState events
  let exnFrames : List Frame :=
    match exn with
    | some m => [Frame.error requestId "plugin_error" m]
    | none => []
  let finishReason := if 0 < r.1.completedToolCalls.length then "tool_calls" else "stop"
  emitChunk requestId completionId modelName (.role "assistant") none ::
    (r.2 ++ exnFrames ++
     [emitChunk requestId completionId modelName .empty (some finishReason),
      Frame.streamEnd requestId r.1.usage])

-- ---------------------------------------------------------------------------
-- Non-streaming path (`handleNonStreaming`).
-- ---------------------------------------------------------------------------

def toToolCallItem : AssistantPart → Option ToolCallType
  | .toolCall id name args => some ⟨id, ⟨name, Json.stringify args⟩⟩
  | _ => none

/-- The text parts of a completion result joined with `""`. -/
def outputText (content : List AssistantPart) : String :=
  (content.filterMap fun p => match p with | .text s => some s | _ => none).foldl (· ++ ·) ""

/-- Embedding of `handleNonStreaming`. -/
def handleNonStreaming (requestId completionId modelName : String)
    (result : LLMResult) : Frame :=
  let text := outputText result.content
  let toolCallItems := result.content.filterMap toToolCallItem
  let finishReason :=
    if 0 < toolCallItems.length then "tool_calls"
    else if result.stopReason = StopReason.length then "length"
    else "stop"
  .response requestId
    ⟨completionId, modelName,
     (if text = "" then none else some text),
     (if 0 < toolCallItems.length then some toolCallItems else none),
     finishReason,
     toChatCompletionsUsage result.usage⟩

-- ---------------------------------------------------------------------------
-- Request boundary (`handleIncomingRequest`).
-- ---------------------------------------------------------------------------

/-- Abstraction of the incoming request body: `messages = none` models a
body without an iterable `messages` array (iterating it throws). -/
structure Body where
  stream : Bool
  messages : Option (List Message)
  tools : Option (List ToolDefinition)

/-- Embedding of `handleIncomingRequest`.  The second component of the
result is an exception escaping to the caller (`none` — the outer catch
converts every failure into a `plugin_error` frame).  The fallible
collaborators are modelled by their outcomes: `apiKeyR` the credential
resolution, `events`/`exn` the streaming capability call, `nsR` the
non-streaming one. -/
def handleIncomingRequest (requestId completionId modelName : String) (body : Body)
    (apiKeyR : Except String (Option String)) (events : List LLMEvent)
    (exn : Option String) (nsR : Except String LLMResult) : List Frame × Option String :=
  let inner : Except String (List Frame) :=
    match body.messages with
    | none => Except.error "messages is not iterable"
    | some msgs =>
      let _built := buildContext msgs body.tools
      match apiKeyR with
      | Except.error e => Except.error e
      | Except.ok _key =>
        if body.stream then
          Except.ok (handleStreaming requestId completionId modelName events exn)
        else
          match nsR with
          | Except.error e => Except.error e
          | Except.ok result => Except.ok [handleNonStreaming requestId completionId modelName result]
  match inner with
  | Except.ok frames => (frames, none)
  | Except.error e => ([Frame.error requestId "plugin_error" e], none)

end CC

-- ===========================================================================
-- Responses dialect translator (src/unnamed/part_003).
-- ===========================================================================

namespace Resp

inductive ImgSource where
  | url (u : String)
  | base64 (data : String) (media_type : String)

inductive ContentPart where
  | inputText (text : String)
  | inputImage (source : ImgSource)
  | inputFile (source : ImgSource)
  | outputText (text : String)

inductive Role where
  | system
  | developer
  | user
  | assistant
  deriving DecidableEq

inductive ItemParam where
  | message (role : Role) (content : Sum String (List ContentPart))
  | functionCallOutput (call_id : String) (output : String)
  | reasoning (content : Option String) (summary : Option String)

/-- Embedding of `extractTextContent`. -/
def extractTextContent (content : Sum String (List ContentPart)) : String :=
  match content with
  | .inl s => s
  | .inr parts =>
    String.intercalate "\n"
      ((parts.map fun p =>
          match p with
          | .inputText t => t
          | .outputText t => t
          | _ => "").filter (· ≠ ""))

/-- Embedding of the Responses-dialect `extractImages`. -/
def extractImages (content : Sum String (List ContentPart)) : List ImageContent :=
  match content with
  | .inl _ => []
  | .inr parts =>
    parts.foldl
      (fun acc p =>
        match p with
        | .inputImage (.base64 dat mediaType) => acc ++ [⟨dat, mediaType⟩]
        | _ => acc)
      []

/-- One iteration of the Responses `buildContext` item loop. -/
def buildStep (acc : BuildAcc) (item : ItemParam) : BuildAcc :=
  match item with
  | .message role content =>
    let text := jsTrim (extractTextContent content)
    if text = "" then acc
    else if role = .system ∨ role = .developer then
      (acc.1 ++ [text], acc.2.1, acc.2.2)
    else if role = .user then
      let itemImages := extractImages content
      if 0 < itemImages.length then
        (acc.1, acc.2.1 ++ [.user (.parts [text])], acc.2.2 ++ itemImages)
      else
        (acc.1, acc.2.1 ++ [.user (.str text)], acc.2.2)
    else
      (acc.1, acc.2.1 ++ [.assistant [.text text] .stop], acc.2.2)
  | .functionCallOutput call_id output =>
    (acc.1, acc.2.1 ++ [.toolResult call_id "" output false], acc.2.2)
  | .reasoning _ _ => acc

/-- The accumulators of the Responses `buildContext` before the
empty-conversation guard (`instructions`, when truthy, seeds the system parts). -/
def buildAccOf (input : Sum String (List ItemParam)) (instructions : Option String) : BuildAcc :=
  let initSys : List String :=
    match instructions with
    | some s => if s = "" then [] else [s]
    | none => []
  match input with
  | .inl s => (initSys, [.user (.str s)], [])
  | .inr items => items.foldl buildStep (initSys, [], [])

/-- Embedding of the Responses-dialect `buildContext`. -/
def buildContext (input : Sum String (List ItemParam)) (instructions : Option String) : BuildResult :=
  let acc := buildAccOf input instructions
  let messages := if acc.2.1.isEmpty then [PiMessage.user (.str "")] else acc.2.1
  ⟨⟨(if acc.1.isEmpty then none else some (String.intercalate "\n\n" acc.1)),
    messages, none⟩,
   acc.2.2⟩

end Resp

-- ===========================================================================
-- Request Dispatcher.
-- ===========================================================================

/-- Modelled from the spec: the Request Dispatcher of the session client
(its ws-client source is not among the provided files).  A `PendingRequest`
is keyed by `requestId` with a cancellation deadline and dialect tag. -/
structure PendingRequest where
  requestId : String
  dialect : String
  deadline : Nat

/-- Modelled from the spec: `dispatch(requestId, body)` rejects if
`requestId` is already pending (emitting `error{id, code:"duplicate_request"}`
and leaving the pending table untouched); otherwise it records a new
`PendingRequest`. -/
def dispatch (pending : List PendingRequest) (requestId dialect : String)
    (deadline : Nat) : List PendingRequest × List Frame :=
  if pending.any (fun p => p.requestId == requestId) then
    (pending, [Frame.error requestId "duplicate_request" "request id already pending"])
  else
    (⟨requestId, dialect, deadline⟩ :: pending, [])

-- ===========================================================================
-- Frame observations used to state the claims.
-- ===========================================================================

/-- The open frame of a Chat-Completions stream: the assistant role
announcement chunk. -/
def isOpenFrame : Frame → Bool
  | .streamEvent _ ch =>
    (match ch.delta with | .role _ => true | _ => false) && ch.finishReason.isNone
  | _ => false

/-- A delta frame: a chunk with no finish reason carrying content or
tool-call increments. -/
def isDeltaFrame : Frame → Bool
  | .streamEvent _ ch =>
    ch.finishReason.isNone &&
    (match ch.delta with
     | .content _ => true
     | .toolCallStart _ => true
     | .toolCallDelta _ _ => true
     | .toolCallEnd _ _ _ _ => true
     | _ => false)
  | _ => false

/-- The finalize frame: a chunk carrying a finish reason. -/
def isFinalizeFrame : Frame → Bool
  | .streamEvent _ ch => ch.finishReason.isSome
  | _ => false

def isStreamEndFrame : Frame → Bool
  | .streamEnd _ _ => true
  | _ => false

def isErrorFrame : Frame → Bool
  | .error _ _ _ => true
  | _ => false

/-- Tail shape claimed by C2: zero or more delta frames, then the finalize
frame, then the terminal stream_end. -/
def claimedTail : List Frame → Bool
  | [f1, f2] => isFinalizeFrame f1 && isStreamEndFrame f2
  | f :: rest => isDeltaFrame f && claimedTail rest
  | [] => false

/-- Frame sequence shape claimed by C2: one open frame, zero or more delta
frames, one finalize frame, exactly one stream_end. -/
def claimedShape : List Frame → Bool
  | f :: rest => isOpenFrame f && claimedTail rest
  | [] => false

/-- The argument strings of finalized tool-call frames. -/
def finalizedArgs : Frame → Option String
  | .streamEvent _ ch =>
    match ch.delta with
    | .toolCallEnd _ _ _ args => some args
    | _ => none
  | _ => none

/-- The usage payload of a stream_end frame. -/
def streamEndUsage : Frame → Option ChatCompletionUsage
  | .streamEnd _ u => some u
  | _ => none

/-- The usage payloads of the stream_end frames of a frame list. -/
def streamEndUsages (l : List Frame) : List ChatCompletionUsage :=
  l.filterMap streamEndUsage

/-- The finish_reason of a non-streaming response frame. -/
def responseFinishReason : Frame → Option String
  | .response _ b => some b.finish_reason
  | _ => none

def isToolCallPart : AssistantPart → Bool
  | .toolCall _ _ _ => true
  | _ => false

/-- The texts the dialect output builders would emit for each assistant turn
of a canonical conversation (source text extraction of the non-streaming
paths: text parts joined by the empty string). -/
def assistantTexts (msgs : List PiMessage) : List String :=
  msgs.filterMap fun m =>
    match m with
    | .assistant content _ => some (CC.outputText content)
    | _ => none

-- ===========================================================================
-- C1 — streaming tool-call finalization.
-- ===========================================================================

/-- C1 counterexample: for the event sequence toolcall_start,
toolcall_delta "a", toolcall_delta "b", toolcall_end (with empty-object
arguments payload) the finalized tool-call frame's argument string is
the JSON serialization of the end event's arguments (here the two-character
string of an open and a close brace), not the concatenation "ab" of the
streamed deltas: the streaming handler never accumulates the deltas. -/
theorem claim1_counterexample :
    (CC.handleStreaming "req-1" "chatcmpl-1" "prov/model"
        [LLMEvent.toolcallStart, LLMEvent.toolcallDelta "a", LLMEvent.toolcallDelta "b",
         LLMEvent.toolcallEnd "call_1" "get_weather" (Json.obj [])] none).filterMap finalizedArgs
      = ["\x7b\x7d"]
    ∧ ("\x7b\x7d" : String) ≠ "ab" := by
  exact ⟨rfl, by decide⟩

/-- C1 amended: for the Chat-Completions streaming path, given the event
sequence toolcall_start, toolcall_delta "a", toolcall_delta "b",
toolcall_end at index 0, the finalized tool call's argument string — in the
finalized tool-call frame and in the completed-tool-call list — equals
`JSON.stringify` of the toolcall_end event's `toolCall.arguments` payload
(the argument deltas are forwarded as incremental frames but not
accumulated), and the finalize frame's finish_reason is "tool_calls". -/
theorem claim1_amended_stream_toolcall_args
    (rid cid model id name : String) (args : Json) :
    CC.handleStreaming rid cid model
        [LLMEvent.toolcallStart, LLMEvent.toolcallDelta "a", LLMEvent.toolcallDelta "b",
         LLMEvent.toolcallEnd id name args] none
      = [CC.emitChunk rid cid model (.role "assistant") none,
         CC.emitChunk rid cid model (.toolCallStart 0) none,
         CC.emitChunk rid cid model (.toolCallDelta 0 "a") none,
         CC.emitChunk rid cid model (.toolCallDelta 0 "b") none,
         CC.emitChunk rid cid model (.toolCallEnd 0 id name (Json.stringify args)) none,
         CC.emitChunk rid cid model .empty (some "tool_calls"),
         Frame.streamEnd rid ⟨0, 0, 0⟩]
    ∧ (CC.runEvents rid cid model CC.initialStreamState
        [LLMEvent.toolcallStart, LLMEvent.toolcallDelta "a", LLMEvent.toolcallDelta "b",
         LLMEvent.toolcallEnd id name args]).1.completedToolCalls
      = [⟨id, ⟨name, Json.stringify args⟩⟩] := by
  exact ⟨rfl, rfl⟩

-- ===========================================================================
-- C2 — streaming frame order.
-- ===========================================================================

/-- Every frame emitted by the streaming loop body is a delta frame or an
error frame. -/
theorem streamStep_frames_ok (rid cid model : String) (st : CC.StreamState) (e : LLMEvent) :
    ∀ f ∈ (CC.streamStep rid cid model st e).2,
      isDeltaFrame f = true ∨ isErrorFrame f = true := by
  intro f hf
  cases e with
  | textDelta d =>
    simp only [CC.streamStep, List.mem_singleton] at hf
    subst hf; left; rfl
  | toolcallStart =>
    simp only [CC.streamStep, List.mem_singleton] at hf
    subst hf; left; rfl
  | toolcallDelta d =>
    simp only [CC.streamStep, List.mem_singleton] at hf
    subst hf; left; rfl
  | toolcallEnd id name args =>
    simp only [CC.streamStep, List.mem_singleton] at hf
    subst hf; left; rfl
  | done u =>
    simp only [CC.streamStep, List.not_mem_nil] at hf
  | error msg u =>
    cases msg with
    | some m =>
      simp only [CC.streamStep, List.mem_singleton] at hf
      subst hf; right; rfl
    | none =>
      simp only [CC.streamStep, List.not_mem_nil] at hf

/-- Every frame emitted during the event loop of the streaming handler is a
delta frame or an error frame. -/
theorem runEvents_frames_ok (rid cid model : String) (events : List LLMEvent) :
    ∀ st, ∀ f ∈ (CC.runEvents rid cid model st events).2,
      isDeltaFrame f = true ∨ isErrorFrame f = true := by
  induction events with
  | nil => intro st f hf; simp [CC.runEvents] at hf
  | cons e rest ih =>
    intro st f hf
    simp only [CC.runEvents, List.mem_append] at hf
    rcases hf with hf | hf
    · exact streamStep_frames_ok rid cid model st e f hf
    · exact ih _ f hf

/-- C2 counterexample: for a streaming request whose LLM stream consists of a
single error event carrying a message, the emitted frames are open frame,
error frame, finalize frame, stream_end — the second frame is an error frame
rather than a delta frame, so the claimed "exactly open, deltas, finalize,
stream_end" shape does not hold. -/
theorem claim2_counterexample :
    CC.handleStreaming "req-2" "chatcmpl-2" "prov/model"
        [LLMEvent.error (some "backend boom") ⟨3, 4, 7⟩] none
      = [CC.emitChunk "req-2" "chatcmpl-2" "prov/model" (.role "assistant") none,
         Frame.error "req-2" "plugin_error" "backend boom",
         CC.emitChunk "req-2" "chatcmpl-2" "prov/model" .empty (some "stop"),
         Frame.streamEnd "req-2" ⟨3, 4, 7⟩]
    ∧ claimedShape (CC.handleStreaming "req-2" "chatcmpl-2" "prov/model"
        [LLMEvent.error (some "backend boom") ⟨3, 4, 7⟩] none) = false := by
  exact ⟨rfl, rfl⟩

/-- C2 amended: for every Chat-Completions streaming request the emitted
frames are exactly, in order: one open frame (assistant role announcement
chunk), zero or more intermediate frames each of which is a delta frame or
an error frame (error frames arise from backend error events and from
exceptions of the capability call), one finalize frame carrying the
finish_reason ("tool_calls" or "stop"), and then exactly one stream_end
frame — regardless of whether the stream ends normally, with an error event,
or by raising an exception. -/
theorem claim2_amended_frame_order (rid cid model : String)
    (events : List LLMEvent) (exn : Option String) :
    ∃ (mid : List Frame) (fr : String) (u : ChatCompletionUsage),
      CC.handleStreaming rid cid model events exn
        = CC.emitChunk rid cid model (.role "assistant") none ::
            (mid ++ [CC.emitChunk rid cid model .empty (some fr), Frame.streamEnd rid u])
      ∧ (∀ f ∈ mid, isDeltaFrame f = true ∨ isErrorFrame f = true)
      ∧ (fr = "tool_calls" ∨ fr = "stop") := by
  refine ⟨(CC.runEvents rid cid model CC.initialStreamState events).2 ++
      (match exn with
       | some m => [Frame.error rid "plugin_error" m]
       | none => []),
      (if 0 < (CC.runEvents rid cid model CC.initialStreamState events).1.completedToolCalls.length
       then "tool_calls" else "stop"),
      (CC.runEvents rid cid model CC.initialStreamState events).1.usage, ?_, ?_, ?_⟩
  · simp [CC.handleStreaming]
  · intro f hf
    rcases List.mem_append.mp hf with hf | hf
    · exact runEvents_frames_ok rid cid model events _ f hf
    · cases exn with
      | some m =>
        simp only [List.mem_singleton] at hf
        subst hf; right; rfl
      | none => simp at hf
  · by_cases h : 0 < (CC.runEvents rid cid model CC.initialStreamState events).1.completedToolCalls.length
    · left; simp [h]
    · right; simp [h]

-- ===========================================================================
-- C3 — stream_end usage: last report wins.
-- ===========================================================================

/-- The streaming loop body overwrites the usage counter with the payload of
a `done`/`error` event and leaves it unchanged otherwise. -/
theorem streamStep_usage (rid cid model : String) (st : CC.StreamState) (e : LLMEvent) :
    (CC.streamStep rid cid model st e).1.usage
      = ((eventUsage e).map toChatCompletionsUsage).getD st.usage := by
  cases e <;> rfl

/-- After the event loop, the usage counter holds the conversion of the last
`done`/`error` usage, or its starting value when none was reported. -/
theorem runEvents_usage (rid cid model : String) (events : List LLMEvent) :
    ∀ st, (CC.runEvents rid cid model st events).1.usage
      = ((lastUsage events).map toChatCompletionsUsage).getD st.usage := by
  induction events with
  | nil => intro st; rfl
  | cons e rest ih =>
    intro st
    simp only [CC.runEvents]
    rw [ih]
    simp only [lastUsage]
    cases h : lastUsage rest with
    | some u => simp
    | none =>
      simp [streamStep_usage]

/-- A delta or error frame is not a stream_end frame. -/
theorem delta_or_error_not_streamEnd (f : Frame)
    (h : isDeltaFrame f = true ∨ isErrorFrame f = true) :
    streamEndUsage f = none := by
  cases f with
  | streamEnd rid u => simp [isDeltaFrame, isErrorFrame] at h
  | streamEvent rid ch => rfl
  | error rid c m => rfl
  | response rid b => rfl

/-- C3: for every Chat-Completions streaming request there is exactly one
stream_end frame, and its usage equals the (converted) usage carried by the
last `done` or `error` event of the LLM stream — each report overwrites the
previous value (zero when no event reported usage); usage is never summed
across events or deltas. -/
theorem claim3_stream_end_usage_last_wins (rid cid model : String)
    (events : List LLMEvent) (exn : Option String) :
    streamEndUsages (CC.handleStreaming rid cid model events exn)
      = [((lastUsage events).map toChatCompletionsUsage).getD ⟨0, 0, 0⟩] := by
  have hmid : ∀ f ∈ (CC.runEvents rid cid model CC.initialStreamState events).2,
      streamEndUsage f = none := by
    intro f hf
    exact delta_or_error_not_streamEnd f (runEvents_frames_ok rid cid model events _ f hf)
  simp only [CC.handleStreaming, streamEndUsages, List.filterMap_cons, List.filterMap_append]
  rw [List.filterMap_eq_nil_iff.mpr hmid]
  cases exn with
  | some m =>
    simp only [List.filterMap_cons, List.filterMap_nil]
    rw [runEvents_usage]
    rfl
  | none =>
    simp only [List.filterMap_nil]
    rw [runEvents_usage]
    rfl

-- ===========================================================================
-- C4 — translator boundary error handling.
-- ===========================================================================

/-- C4: `handleIncomingRequest` never lets an exception escape to its caller
(second component always `none`); a missing/non-iterable `messages` body, a
credential-resolution failure, or a non-streaming capability failure is
converted to a single error frame with code "plugin_error" on that request
id; and for a streaming request an exception of the capability call still is
followed by the finalize frame and the terminal stream_end frame (the error
frame for it immediately precedes them). -/
theorem claim4_no_exception_escape
    (rid cid model : String) (body : CC.Body)
    (apiKeyR : Except String (Option String)) (events : List LLMEvent)
    (exn : Option String) (nsR : Except String LLMResult) :
    (CC.handleIncomingRequest rid cid model body apiKeyR events exn nsR).2 = none
    ∧ (body.messages = none →
        (CC.handleIncomingRequest rid cid model body apiKeyR events exn nsR).1
          = [Frame.error rid "plugin_error" "messages is not iterable"])
    ∧ (∀ e msgs, body.messages = some msgs → apiKeyR = Except.error e →
        (CC.handleIncomingRequest rid cid model body apiKeyR events exn nsR).1
          = [Frame.error rid "plugin_error" e])
    ∧ (∀ m msgs k, body.stream = true → body.messages = some msgs →
        apiKeyR = Except.ok k → exn = some m →
        ∃ (mid : List Frame) (fr : String) (u : ChatCompletionUsage),
          (CC.handleIncomingRequest rid cid model body apiKeyR events exn nsR).1
            = CC.emitChunk rid cid model (.role "assistant") none ::
                (mid ++ [Frame.error rid "plugin_error" m,
                         CC.emitChunk rid cid model .empty (some fr),
                         Frame.streamEnd rid u]))
    ∧ (∀ e msgs k, body.stream = false → body.messages = some msgs →
        apiKeyR = Except.ok k → nsR = Except.error e →
        (CC.handleIncomingRequest rid cid model body apiKeyR events exn nsR).1
          = [Frame.error rid "plugin_error" e]) := by
  refine ⟨?_, ?_, ?_, ?_, ?_⟩
  · obtain ⟨st, msgs, tools⟩ := body
    cases msgs <;> cases apiKeyR <;> cases st <;> cases nsR <;> rfl
  · intro h
    simp [CC.handleIncomingRequest, h]
  · intro e msgs hm ha
    simp [CC.handleIncomingRequest, hm, ha]
  · intro m msgs k hs hm ha hexn
    refine ⟨(CC.runEvents rid cid model CC.initialStreamState events).2,
      (if 0 < (CC.runEvents rid cid model CC.initialStreamState events).1.completedToolCalls.length
       then "tool_calls" else "stop"),
      (CC.runEvents rid cid model CC.initialStreamState events).1.usage, ?_⟩
    simp [CC.handleIncomingRequest, hm, ha, hs, hexn, CC.handleStreaming]
  · intro e msgs k hs hm ha hn
    simp [CC.handleIncomingRequest, hm, ha, hs, hn]

/-- C4 witness: the boundary behavior at concrete failing inputs — a body
without messages, a failed credential resolution, and a failed non-streaming
capability call each yield exactly the plugin_error frame; nothing escapes. -/
theorem claim4_witness :
    (CC.handleIncomingRequest "r" "c" "m" ⟨false, none, none⟩ (Except.ok none) [] none
        (Except.error "x")).2 = none
    ∧ (CC.handleIncomingRequest "r" "c" "m" ⟨false, none, none⟩ (Except.ok none) [] none
        (Except.error "x")).1 = [Frame.error "r" "plugin_error" "messages is not iterable"]
    ∧ (CC.handleIncomingRequest "r" "c" "m" ⟨false, some [], none⟩ (Except.error "bad key") [] none
        (Except.ok ⟨[], .stop, ⟨0, 0, 0⟩⟩)).1 = [Frame.error "r" "plugin_error" "bad key"]
    ∧ (CC.handleIncomingRequest "r" "c" "m" ⟨false, some [], none⟩ (Except.ok none) [] none
        (Except.error "llm down")).1 = [Frame.error "r" "plugin_error" "llm down"]
    ∧ (CC.handleIncomingRequest "r" "c" "m" ⟨true, some [], none⟩ (Except.ok none) [] (some "boom")
        (Except.ok ⟨[], .stop, ⟨0, 0, 0⟩⟩)).1
      = [CC.emitChunk "r" "c" "m" (.role "assistant") none,
         Frame.error "r" "plugin_error" "boom",
         CC.emitChunk "r" "c" "m" .empty (some "stop"),
         Frame.streamEnd "r" ⟨0, 0, 0⟩] := by
  refine ⟨(claim4_no_exception_escape "r" "c" "m" ⟨false, none, none⟩ (Except.ok none) [] none
      (Except.error "x")).1,
    (claim4_no_exception_escape "r" "c" "m" ⟨false, none, none⟩ (Except.ok none) [] none
      (Except.error "x")).2.1 rfl,
    (claim4_no_exception_escape "r" "c" "m" ⟨false, some [], none⟩ (Except.error "bad key") [] none
      (Except.ok ⟨[], .stop, ⟨0, 0, 0⟩⟩)).2.2.1 "bad key" [] rfl rfl,
    (claim4_no_exception_escape "r" "c" "m" ⟨false, some [], none⟩ (Except.ok none) [] none
      (Except.error "llm down")).2.2.2.2 "llm down" [] none rfl rfl rfl rfl,
    rfl⟩

-- ===========================================================================
-- C5 — the canonical conversation is never empty.
-- ===========================================================================

/-- C5: in both dialects the canonical conversation handed to the LLM
capability contains at least one turn; whenever dialect parsing yields zero
turns, a single empty user turn is inserted (an empty input is never an
error: `buildContext` still returns a conversation). -/
theorem claim5_nonempty_conversation :
    (∀ msgs tools, (CC.buildContext msgs tools).context.messages ≠ [])
    ∧ (∀ msgs tools, (CC.buildAccOf msgs).2.1 = [] →
        (CC.buildContext msgs tools).context.messages = [PiMessage.user (.str "")])
    ∧ (CC.buildContext [] none).context.messages = [PiMessage.user (.str "")]
    ∧ (∀ input instr, (Resp.buildContext input instr).context.messages ≠ [])
    ∧ (∀ input instr, (Resp.buildAccOf input instr).2.1 = [] →
        (Resp.buildContext input instr).context.messages = [PiMessage.user (.str "")])
    ∧ (Resp.buildContext (Sum.inr []) none).context.messages = [PiMessage.user (.str "")] := by
  refine ⟨?_, ?_, rfl, ?_, ?_, rfl⟩
  · intro msgs tools
    cases h : (CC.buildAccOf msgs).2.1 <;> simp [CC.buildContext, h]
  · intro msgs tools h
    simp [CC.buildContext, h]
  · intro input instr
    cases h : (Resp.buildAccOf input instr).2.1 <;> simp [Resp.buildContext, h]
  · intro input instr h
    simp [Resp.buildContext, h]

/-- C5 witness: a system-only Chat-Completions body and a reasoning-only
Responses body both parse to zero turns, and the empty user turn is
inserted. -/
theorem claim5_witness :
    (CC.buildContext [CC.Message.system "be helpful"] none).context.messages
      = [PiMessage.user (.str "")]
    ∧ (Resp.buildContext (Sum.inr [Resp.ItemParam.reasoning none none]) none).context.messages
      = [PiMessage.user (.str "")] :=
  ⟨claim5_nonempty_conversation.2.1 [CC.Message.system "be helpful"] none rfl,
   claim5_nonempty_conversation.2.2.2.2.1 (Sum.inr [Resp.ItemParam.reasoning none none]) none rfl⟩

-- ===========================================================================
-- C6 — non-streaming finish_reason priority.
-- ===========================================================================

/-- A completion result contains a tool call iff its tool-call item list is
non-empty. -/
theorem any_toolCall_iff (l : List AssistantPart) :
    l.any isToolCallPart = true ↔ 0 < (l.filterMap CC.toToolCallItem).length := by
  induction l with
  | nil => simp
  | cons p rest ih =>
    cases p with
    | text s => simpa [isToolCallPart, CC.toToolCallItem] using ih
    | toolCall id name args => simp [isToolCallPart, CC.toToolCallItem]

/-- C6: for every non-streaming Chat-Completions request, the emitted
response's finish_reason is "tool_calls" if the backend result contains at
least one tool call; otherwise "length" if the backend reports a
length-truncated stop reason; otherwise "stop". -/
theorem claim6_finish_reason_priority (rid cid model : String) (r : LLMResult) :
    responseFinishReason (CC.handleNonStreaming rid cid model r)
      = some (if r.content.any isToolCallPart then "tool_calls"
              else if r.stopReason = StopReason.length then "length" else "stop") := by
  by_cases h : r.content.any isToolCallPart
  · have hp := (any_toolCall_iff r.content).mp h
    simp [CC.handleNonStreaming, responseFinishReason, h, hp]
  · have hp : ¬ 0 < (r.content.filterMap CC.toToolCallItem).length := by
      intro hc
      exact h ((any_toolCall_iff r.content).mpr hc)
    simp [CC.handleNonStreaming, responseFinishReason, h, hp]

-- ===========================================================================
-- C7 — tool-call argument parse fallback.
-- ===========================================================================

/-- C7: when building a canonical conversation from a Chat-Completions body,
an assistant tool_call whose JSON-encoded argument string fails to parse
becomes a tool-use part with arguments `_raw ↦ <the original string>`, and
the request proceeds: `buildContext` still returns the conversation with the
tool-use turn included. -/
theorem claim7_toolcall_args_fallback (id name s : String) (c : Option String)
    (h : Json.parse s = none) :
    CC.convertToolCall ⟨id, ⟨name, s⟩⟩
      = AssistantPart.toolCall id name (Json.obj [("_raw", Json.str s)])
    ∧ (CC.buildContext [CC.Message.assistant c (some [⟨id, ⟨name, s⟩⟩])] none).context.messages
      = [PiMessage.assistant
          (CC.assistantTextParts c ++
            [AssistantPart.toolCall id name (Json.obj [("_raw", Json.str s)])])
          .toolUse] := by
  constructor
  · simp [CC.convertToolCall, h]
  · simp [CC.buildContext, CC.buildAccOf, CC.buildStep, CC.convertToolCall, h]

/-- C7 witness: a lone opening brace is not valid JSON; the turn degrades to
the raw-string wrapper and the conversation is still built. -/
theorem claim7_witness :
    Json.parse "\x7b" = none
    ∧ CC.convertToolCall ⟨"tc1", ⟨"get_weather", "\x7b"⟩⟩
        = AssistantPart.toolCall "tc1" "get_weather" (Json.obj [("_raw", Json.str "\x7b")])
    ∧ (CC.buildContext [CC.Message.assistant none (some [⟨"tc1", ⟨"get_weather", "\x7b"⟩⟩])]
        none).context.messages
      = [PiMessage.assistant
          [AssistantPart.toolCall "tc1" "get_weather" (Json.obj [("_raw", Json.str "\x7b")])]
          .toolUse] :=
  ⟨rfl,
   (claim7_toolcall_args_fallback "tc1" "get_weather" "\x7b" none rfl).1,
   (claim7_toolcall_args_fallback "tc1" "get_weather" "\x7b" none rfl).2⟩

-- ===========================================================================
-- C8 — round trip of text-only assistant turns.
-- ===========================================================================

theorem empty_append_string (s : String) : "" ++ s = s := by
  cases s
  rfl

/-- C8 counterexample: in the Responses dialect an assistant turn whose text
carries leading/trailing whitespace is trimmed by the conversation builder,
so re-emitting it through the output builder yields "hi" for original text
" hi " — the round trip is not the identity on all text-only turns. -/
theorem claim8_counterexample :
    assistantTexts ((Resp.buildContext
        (Sum.inr [Resp.ItemParam.message .assistant (Sum.inl " hi ")]) none).context.messages)
      = ["hi"]
    ∧ (" hi " : String) ≠ "hi" := by
  exact ⟨rfl, by decide⟩

/-- C8 amended: converting a text-only assistant turn to canonical form and
re-emitting it through the dialect's output text extraction is the identity
for every Chat-Completions assistant text, and in the Responses dialect for
every nonempty assistant text without leading or trailing whitespace (the
Responses builder trims the text, so padded text is not preserved and
whitespace-only turns are dropped). -/
theorem claim8_amended_roundtrip :
    (∀ s, assistantTexts ((CC.buildContext [CC.Message.assistant (some s) none]
        none).context.messages) = [s])
    ∧ (∀ s, jsTrim s = s → s ≠ "" →
        assistantTexts ((Resp.buildContext
          (Sum.inr [Resp.ItemParam.message .assistant (Sum.inl s)]) none).context.messages)
        = [s]) := by
  constructor
  · intro s
    by_cases hs : s = "" <;>
      simp [CC.buildContext, CC.buildAccOf, CC.buildStep, CC.assistantTextParts,
        assistantTexts, CC.outputText, hs, empty_append_string]
  · intro s h1 h2
    simp [Resp.buildContext, Resp.buildAccOf, Resp.buildStep, Resp.extractTextContent,
      h1, h2, assistantTexts, CC.outputText, empty_append_string]

/-- C8 witness: the round trip is the identity on the trimmed nonempty
Responses assistant text "hello". -/
theorem claim8_witness :
    jsTrim "hello" = "hello"
    ∧ assistantTexts ((Resp.buildContext
        (Sum.inr [Resp.ItemParam.message .assistant (Sum.inl "hello")]) none).context.messages)
      = ["hello"] :=
  ⟨rfl, claim8_amended_roundtrip.2 "hello" rfl (by decide)⟩

-- ===========================================================================
-- C9 — duplicate request ids are rejected.
-- ===========================================================================

/-- C9: dispatching a request frame whose requestId is already pending emits
`error{id, code:"duplicate_request"}` and leaves the pending table — in
particular the original pending request — untouched. -/
theorem claim9_duplicate_request (pending : List PendingRequest)
    (rid dialect : String) (deadline : Nat)
    (h : pending.any (fun p => p.requestId == rid) = true) :
    dispatch pending rid dialect deadline
      = (pending, [Frame.error rid "duplicate_request" "request id already pending"]) := by
  simp [dispatch, h]

/-- C9 witness: a second dispatch of the pending id "req-9" is rejected and
the original pending request is undisturbed. -/
theorem claim9_witness :
    ([(⟨"req-9", "chat", 120⟩ : PendingRequest)].any (fun p => p.requestId == "req-9")) = true
    ∧ dispatch [⟨"req-9", "chat", 120⟩] "req-9" "chat" 200
      = ([⟨"req-9", "chat", 120⟩],
         [Frame.error "req-9" "duplicate_request" "request id already pending"]) :=
  ⟨rfl, claim9_duplicate_request [⟨"req-9", "chat", 120⟩] "req-9" "chat" 200 rfl⟩

-- ===========================================================================
-- C10 — trim-empty Responses message items are skipped entirely.
-- ===========================================================================

/-- C10: in the Responses-dialect conversation builder, a message item whose
extracted text is empty after trimming produces no turn at all and
contributes nothing: the built conversation (system prompt, turns, and
extracted-images list alike) equals the one built without the item.  In
particular a user message containing only images, or only whitespace text,
is skipped and its embedded base64 images are never added. -/
theorem claim10_empty_text_item_skipped (pre post : List Resp.ItemParam)
    (role : Resp.Role) (content : Sum String (List Resp.ContentPart))
    (instr : Option String)
    (h : jsTrim (Resp.extractTextContent content) = "") :
    Resp.buildContext (Sum.inr (pre ++ Resp.ItemParam.message role content :: post)) instr
      = Resp.buildContext (Sum.inr (pre ++ post)) instr := by
  have hstep : ∀ acc, Resp.buildStep acc (.message role content) = acc := by
    intro acc
    simp [Resp.buildStep, h]
  have hacc : Resp.buildAccOf (Sum.inr (pre ++ Resp.ItemParam.message role content :: post)) instr
      = Resp.buildAccOf (Sum.inr (pre ++ post)) instr := by
    simp only [Resp.buildAccOf, List.foldl_append, List.foldl_cons, hstep]
  unfold Resp.buildContext
  rw [hacc]

/-- C10 witness: a user message item holding only a base64 image yields the
same build as no item at all — no turn, and no image extracted. -/
theorem claim10_witness :
    jsTrim (Resp.extractTextContent
        (Sum.inr [Resp.ContentPart.inputImage (Resp.ImgSource.base64 "QUJD" "image/png")])) = ""
    ∧ Resp.buildContext
        (Sum.inr [Resp.ItemParam.message .user
          (Sum.inr [Resp.ContentPart.inputImage (Resp.ImgSource.base64 "QUJD" "image/png")])]) none
      = Resp.buildContext (Sum.inr []) none :=
  ⟨rfl,
   claim10_empty_text_item_skipped [] [] .user
     (Sum.inr [Resp.ContentPart.inputImage (Resp.ImgSource.base64 "QUJD" "image/png")]) none rfl⟩
